import Mathlib

/-
Verification of the Financial-Advisor-Costs repository.

The repository consists of a single arithmetic computation
(investments.py) and a test-suite helper class
(test_investments.py, class InvestmentCalculator) that encapsulates the
same computation.  We embed the class shallowly: its four constructor
fields become a structure, and each method becomes a function over exact
rational arithmetic.  Python evaluates these formulas in IEEE-754
doubles; the embedding uses exact rationals, which is the idealised
arithmetic the specification describes.

Method bodies are translated directly from the source:
- future_value_no_fees returns
    initial_value * (1 + annual_return) ** years
  where ** with an integer exponent is Python float power, i.e. zpow
  (negative exponents take reciprocals).
- future_value_with_fees starts a local variable at initial_value and
  multiplies it by (1 + annual_return - fee_percentage) once per
  iteration of `for year in range(self.years)`; range(n) is empty when
  n <= 0, which Int.toNat reproduces.
- total_fees_paid and opportunity_cost both return
    future_value_no_fees() - future_value_with_fees().
-/

structure InvestmentCalculator where
  initial_value : ℚ
  fee_percentage : ℚ
  years : ℤ
  annual_return : ℚ
deriving DecidableEq

def future_value_no_fees (c : InvestmentCalculator) : ℚ :=
  c.initial_value * (1 + c.annual_return) ^ c.years

def future_value_with_fees (c : InvestmentCalculator) : ℚ :=
  (List.range c.years.toNat).foldl
    (fun portfolio_value _ =>
      portfolio_value * (1 + c.annual_return - c.fee_percentage))
    c.initial_value

def total_fees_paid (c : InvestmentCalculator) : ℚ :=
  future_value_no_fees c - future_value_with_fees c

def opportunity_cost (c : InvestmentCalculator) : ℚ :=
  future_value_no_fees c - future_value_with_fees c

/-- Closed-form with-fee future value, modelled from the specification
formula `future_value_with_fee = initial_value *
(1 + return_rate - fee_rate) ^ periods`, to be compared with the
iterative method above. -/
def future_value_with_fee_closed (c : InvestmentCalculator) : ℚ :=
  c.initial_value * (1 + c.annual_return - c.fee_percentage) ^ c.years

/-
State-passing versions of the four methods.  Each method call receives
the object state and returns the (possibly updated) state together with
the return value.  The with-fee loop reads the fields from the threaded
state each iteration and writes only the local accumulator, exactly as
`portfolio_value *= (1 + self.annual_return - self.fee_percentage)`
does; no statement in any method body assigns to a field of self.
-/

def future_value_no_fees_run (c : InvestmentCalculator) :
    InvestmentCalculator × ℚ :=
  (c, c.initial_value * (1 + c.annual_return) ^ c.years)

def future_value_with_fees_run (c : InvestmentCalculator) :
    InvestmentCalculator × ℚ :=
  (List.range c.years.toNat).foldl
    (fun (s : InvestmentCalculator × ℚ) _ =>
      (s.1, s.2 * (1 + s.1.annual_return - s.1.fee_percentage)))
    (c, c.initial_value)

def total_fees_paid_run (c : InvestmentCalculator) :
    InvestmentCalculator × ℚ :=
  let s1 := future_value_no_fees_run c
  let s2 := future_value_with_fees_run s1.1
  (s2.1, s1.2 - s2.2)

def opportunity_cost_run (c : InvestmentCalculator) :
    InvestmentCalculator × ℚ :=
  let s1 := future_value_no_fees_run c
  let s2 := future_value_with_fees_run s1.1
  (s2.1, s1.2 - s2.2)

/-- Folding the per-period multiplication over `List.range n` is the
same as multiplying by the n-th power of the multiplier. -/
theorem foldl_mul_range (m v : ℚ) (n : ℕ) :
    (List.range n).foldl (fun x _ => x * m) v = v * m ^ n := by
  induction n generalizing v with
  | zero => simp
  | succ k ih =>
    rw [List.range_succ, List.foldl_append, ih]
    simp [pow_succ, mul_assoc]

/-- The iterative with-fee method in closed form over the natural
number of iterations actually performed. -/
theorem future_value_with_fees_eq_pow (c : InvestmentCalculator) :
    future_value_with_fees c =
      c.initial_value *
        (1 + c.annual_return - c.fee_percentage) ^ c.years.toNat := by
  unfold future_value_with_fees
  exact foldl_mul_range _ _ _

/-- The with-fee loop threads the object state through unchanged. -/
theorem withFees_run_fst (c : InvestmentCalculator) (v : ℚ)
    (l : List ℕ) :
    (l.foldl
      (fun (s : InvestmentCalculator × ℚ) _ =>
        (s.1, s.2 * (1 + s.1.annual_return - s.1.fee_percentage)))
      (c, v)).1 = c := by
  induction l generalizing v with
  | nil => rfl
  | cons a t ih => exact ih _

/-- A rational power with a non-negative integer exponent is the
natural-number power of its toNat. -/
theorem zpow_eq_pow_toNat (x : ℚ) (z : ℤ) (hz : 0 ≤ z) :
    x ^ z = x ^ z.toNat := by
  rw [← zpow_natCast x z.toNat, Int.toNat_of_nonneg hz]

/-- The difference of n-th powers of bases above 1 grows with the
exponent: for 1 <= b <= a and n1 <= n2,
a ^ n1 - b ^ n1 <= a ^ n2 - b ^ n2. -/
theorem pow_sub_pow_le_of_le (a b : ℚ) (hb : 1 ≤ b) (hba : b ≤ a)
    (n1 n2 : ℕ) (h : n1 ≤ n2) :
    a ^ n1 - b ^ n1 ≤ a ^ n2 - b ^ n2 := by
  induction n2, h using Nat.le_induction with
  | base => exact le_refl _
  | succ n hn ih =>
    refine le_trans ih ?_
    have h1 : b ^ n ≤ a ^ n := pow_le_pow_left₀ (by linarith) hba n
    have h2 : b ^ n * (b - 1) ≤ a ^ n * (a - 1) :=
      mul_le_mul h1 (by linarith) (by linarith)
        (pow_nonneg (by linarith) n)
    rw [mul_sub, mul_one, mul_sub, mul_one] at h2
    rw [pow_succ, pow_succ]
    linarith

/-- Claim C1 is false as stated: with the fee rates unrestricted, a
larger fee rate can give a strictly smaller total fee cost.  At
initial_value = 1, periods = 2, return_rate = -1/2, the fee rates
6/10 <= 9/10 give total fee costs 24/100 and 9/100. -/
theorem total_fees_not_mono_in_fee_cex :
    ¬ (total_fees_paid ⟨1, 6/10, 2, -1/2⟩ ≤
        total_fees_paid ⟨1, 9/10, 2, -1/2⟩) := by
  norm_num [total_fees_paid, future_value_no_fees,
    future_value_with_fees_eq_pow, show ((2:ℤ).toNat) = 2 from rfl]

/-- Claim C1 (amended): holding initial_value, periods and return_rate
fixed, with a non-negative initial_value, total_fees_paid is
monotonically non-decreasing in fee_rate over the range of fee rates
whose per-period with-fee multiplier stays non-negative
(fee_rate <= 1 + return_rate). -/
theorem total_fees_mono_in_fee (c1 c2 : InvestmentCalculator)
    (hiv : c1.initial_value = c2.initial_value)
    (hy : c1.years = c2.years)
    (hr : c1.annual_return = c2.annual_return)
    (h0 : 0 ≤ c1.initial_value)
    (hf : c1.fee_percentage ≤ c2.fee_percentage)
    (hm : 0 ≤ 1 + c2.annual_return - c2.fee_percentage) :
    total_fees_paid c1 ≤ total_fees_paid c2 := by
  unfold total_fees_paid future_value_no_fees
  rw [future_value_with_fees_eq_pow, future_value_with_fees_eq_pow,
    hiv, hy, hr]
  refine sub_le_sub_left ?_ _
  refine mul_le_mul_of_nonneg_left ?_ (hiv ▸ h0)
  exact pow_le_pow_left₀ hm (by linarith) _

theorem total_fees_mono_in_fee_witness :
    ((⟨1, 1/100, 2, 5/100⟩ : InvestmentCalculator).initial_value =
      (⟨1, 2/100, 2, 5/100⟩ : InvestmentCalculator).initial_value) ∧
    (0:ℚ) ≤ 1 ∧ (1/100:ℚ) ≤ 2/100 ∧ (0:ℚ) ≤ 1 + 5/100 - 2/100 ∧
    total_fees_paid ⟨1, 1/100, 2, 5/100⟩ ≤
      total_fees_paid ⟨1, 2/100, 2, 5/100⟩ :=
  ⟨rfl, by norm_num, by norm_num, by norm_num,
    total_fees_mono_in_fee _ _ rfl rfl rfl (by norm_num) (by norm_num)
      (by norm_num)⟩

/-- Claim C2 is false as stated: with return_rate unrestricted the
with-fee multiplier can be more negative than the no-fee multiplier is
positive, and an even number of periods then makes the with-fee value
exceed the no-fee value.  At initial_value = 1, fee_rate = 9/10,
periods = 2, return_rate = -6/10 the values are 1/4 and 4/25. -/
theorem with_fees_gt_no_fees_cex :
    ¬ (future_value_with_fees ⟨1, 9/10, 2, -6/10⟩ ≤
        future_value_no_fees ⟨1, 9/10, 2, -6/10⟩) := by
  norm_num [future_value_no_fees, future_value_with_fees_eq_pow,
    show ((2:ℤ).toNat) = 2 from rfl]

/-- Claim C2 (amended): with non-negative initial_value, non-negative
periods, and 0 <= fee_rate <= 1 + return_rate (non-negative with-fee
multiplier), the with-fee future value never exceeds the no-fee future
value. -/
theorem with_fees_le_no_fees (c : InvestmentCalculator)
    (h0 : 0 ≤ c.initial_value) (hf : 0 ≤ c.fee_percentage)
    (hm : c.fee_percentage ≤ 1 + c.annual_return)
    (hy : 0 ≤ c.years) :
    future_value_with_fees c ≤ future_value_no_fees c := by
  rw [future_value_with_fees_eq_pow]
  unfold future_value_no_fees
  rw [zpow_eq_pow_toNat _ _ hy]
  refine mul_le_mul_of_nonneg_left ?_ h0
  exact pow_le_pow_left₀ (by linarith) (by linarith) _

theorem with_fees_le_no_fees_witness :
    (0:ℚ) ≤ 2000000 ∧ (0:ℚ) ≤ 1/100 ∧ (1/100:ℚ) ≤ 1 + 5/100 ∧
    (0:ℤ) ≤ 15 ∧
    future_value_with_fees ⟨2000000, 1/100, 15, 5/100⟩ ≤
      future_value_no_fees ⟨2000000, 1/100, 15, 5/100⟩ :=
  ⟨by norm_num, by norm_num, by norm_num, by norm_num,
    with_fees_le_no_fees _ (by norm_num) (by norm_num) (by norm_num)
      (by norm_num)⟩

/-- Claim C3: for non-negative periods the iterative per-period
computation of the with-fee future value equals the closed-form
exponentiation of the specification exactly (the embedding uses exact
rational arithmetic). -/
theorem with_fees_iter_eq_closed (c : InvestmentCalculator)
    (hy : 0 ≤ c.years) :
    future_value_with_fees c = future_value_with_fee_closed c := by
  rw [future_value_with_fees_eq_pow]
  unfold future_value_with_fee_closed
  rw [zpow_eq_pow_toNat _ _ hy]

theorem with_fees_iter_eq_closed_witness :
    (0:ℤ) ≤ 15 ∧
    future_value_with_fees ⟨2000000, 1/100, 15, 5/100⟩ =
      future_value_with_fee_closed ⟨2000000, 1/100, 15, 5/100⟩ :=
  ⟨by norm_num, with_fees_iter_eq_closed _ (by norm_num)⟩

/-- Claim C4: total_fees_paid is by definition the difference of the
two future values, and opportunity_cost returns exactly the same
expression. -/
theorem total_fees_and_opportunity_cost_def (c : InvestmentCalculator) :
    total_fees_paid c =
      future_value_no_fees c - future_value_with_fees c ∧
    opportunity_cost c = total_fees_paid c :=
  ⟨rfl, rfl⟩

/-- Claim C5: with zero periods both future values equal the initial
value exactly and the total fee cost is zero. -/
theorem zero_periods_values (c : InvestmentCalculator)
    (h : c.years = 0) :
    future_value_no_fees c = c.initial_value ∧
    future_value_with_fees c = c.initial_value ∧
    total_fees_paid c = 0 := by
  refine ⟨?_, ?_, ?_⟩ <;>
    simp [future_value_no_fees, future_value_with_fees_eq_pow,
      total_fees_paid, h]

theorem zero_periods_values_witness :
    ((⟨1000000, 1/100, 0, 5/100⟩ : InvestmentCalculator).years =
      (0:ℤ)) ∧
    (future_value_no_fees ⟨1000000, 1/100, 0, 5/100⟩ = 1000000 ∧
      future_value_with_fees ⟨1000000, 1/100, 0, 5/100⟩ = 1000000 ∧
      total_fees_paid ⟨1000000, 1/100, 0, 5/100⟩ = 0) :=
  ⟨rfl, zero_periods_values _ rfl⟩

/-- Claim C6: with positive initial_value, positive fee_rate and
return_rate strictly above fee_rate (with-fee multiplier above 1),
total_fees_paid is monotonically non-decreasing in the number of
periods. -/
theorem total_fees_mono_in_periods (iv f r : ℚ) (n1 n2 : ℕ)
    (hiv : 0 < iv) (hf : 0 < f) (hfr : f < r) (hn : n1 ≤ n2) :
    total_fees_paid ⟨iv, f, (n1 : ℤ), r⟩ ≤
      total_fees_paid ⟨iv, f, (n2 : ℤ), r⟩ := by
  unfold total_fees_paid future_value_no_fees
  rw [future_value_with_fees_eq_pow, future_value_with_fees_eq_pow]
  simp only [Int.toNat_natCast]
  rw [zpow_natCast, zpow_natCast]
  have key := pow_sub_pow_le_of_le (1 + r) (1 + r - f)
    (by linarith) (by linarith) n1 n2 hn
  have H := mul_le_mul_of_nonneg_left key hiv.le
  rw [mul_sub, mul_sub] at H
  exact H

theorem total_fees_mono_in_periods_witness :
    (0:ℚ) < 2000000 ∧ (0:ℚ) < 1/100 ∧ (1/100:ℚ) < 5/100 ∧
    (2:ℕ) ≤ 3 ∧
    total_fees_paid ⟨2000000, 1/100, ((2:ℕ) : ℤ), 5/100⟩ ≤
      total_fees_paid ⟨2000000, 1/100, ((3:ℕ) : ℤ), 5/100⟩ :=
  ⟨by norm_num, by norm_num, by norm_num, by norm_num,
    total_fees_mono_in_periods 2000000 (1/100) (5/100) 2 3
      (by norm_num) (by norm_num) (by norm_num) (by norm_num)⟩

/-- Claim C7 is false as stated: at the default parameters the exact
no-fee future value is more than four dollars above the figure
$4,157,851.91, so it does not match it to cent-level precision. -/
theorem no_fees_default_figure_cex :
    ¬ (|future_value_no_fees ⟨2000000, 1/100, 15, 5/100⟩ -
          415785191/100| ≤ 1/100) := by
  rw [not_le]
  have h4 : (4:ℚ) <
      future_value_no_fees ⟨2000000, 1/100, 15, 5/100⟩ -
        415785191/100 := by
    norm_num [future_value_no_fees]
  calc (1/100 : ℚ) < 4 := by norm_num
    _ < _ := h4
    _ ≤ _ := le_abs_self _

/-- Claim C7 (amended): at the default parameters the no-fee future
value is approximately $4,157,856.36 (within half a cent), and the
total fee cost lies strictly between $500,000 and $600,000. -/
theorem default_scenario_values :
    |future_value_no_fees ⟨2000000, 1/100, 15, 5/100⟩ -
        415785636/100| < 1/200 ∧
    500000 < total_fees_paid ⟨2000000, 1/100, 15, 5/100⟩ ∧
    total_fees_paid ⟨2000000, 1/100, 15, 5/100⟩ < 600000 := by
  refine ⟨?_, ?_, ?_⟩
  · rw [abs_sub_lt_iff]
    constructor <;> norm_num [future_value_no_fees]
  · norm_num [total_fees_paid, future_value_no_fees,
      future_value_with_fees_eq_pow, show ((15:ℤ).toNat) = 15 from rfl]
  · norm_num [total_fees_paid, future_value_no_fees,
      future_value_with_fees_eq_pow, show ((15:ℤ).toNat) = 15 from rfl]

/-- Claim C8: for negative years the with-fee loop body never runs
(range of a negative number is empty), so future_value_with_fees
returns initial_value unchanged; future_value_no_fees has no such
guarantee, as it raises the growth multiplier to a negative power
(shown at initial_value = 1000000, years = -2, return_rate = 5/100,
where it returns 1000000 * (21/20)^(-2), not 1000000). -/
theorem negative_years_with_fees_id (c : InvestmentCalculator)
    (h : c.years < 0) :
    future_value_with_fees c = c.initial_value ∧
    future_value_no_fees ⟨1000000, 1/100, -2, 5/100⟩ ≠ 1000000 := by
  constructor
  · unfold future_value_with_fees
    rw [Int.toNat_of_nonpos h.le]
    rfl
  · norm_num [future_value_no_fees]

theorem negative_years_with_fees_id_witness :
    ((⟨7, 1/3, -5, 2⟩ : InvestmentCalculator).years < 0) ∧
    (future_value_with_fees ⟨7, 1/3, -5, 2⟩ =
        (⟨7, 1/3, -5, 2⟩ : InvestmentCalculator).initial_value ∧
      future_value_no_fees ⟨1000000, 1/100, -2, 5/100⟩ ≠ 1000000) :=
  ⟨by norm_num, negative_years_with_fees_id _ (by norm_num)⟩

/-- Claim C9: future_value_no_fees reads only initial_value, years and
annual_return, so two calculators that agree on those three fields give
the same no-fee future value regardless of their fee_percentage. -/
theorem no_fees_independent_of_fee (c1 c2 : InvestmentCalculator)
    (hiv : c1.initial_value = c2.initial_value)
    (hy : c1.years = c2.years)
    (hr : c1.annual_return = c2.annual_return) :
    future_value_no_fees c1 = future_value_no_fees c2 := by
  unfold future_value_no_fees
  rw [hiv, hy, hr]

theorem no_fees_independent_of_fee_witness :
    ((⟨1, 1/100, 5, 2/100⟩ : InvestmentCalculator).initial_value =
      (⟨1, 9/100, 5, 2/100⟩ : InvestmentCalculator).initial_value) ∧
    future_value_no_fees ⟨1, 1/100, 5, 2/100⟩ =
      future_value_no_fees ⟨1, 9/100, 5, 2/100⟩ :=
  ⟨rfl, no_fees_independent_of_fee _ _ rfl rfl rfl⟩

/-- Claim C10: in the state-passing reading of the four methods,
every method returns the object state unchanged: the with-fee loop
writes only its local accumulator, and no method assigns to a field. -/
theorem methods_preserve_state (c : InvestmentCalculator) :
    (future_value_no_fees_run c).1 = c ∧
    (future_value_with_fees_run c).1 = c ∧
    (total_fees_paid_run c).1 = c ∧
    (opportunity_cost_run c).1 = c := by
  refine ⟨rfl, ?_, ?_, ?_⟩ <;>
    exact withFees_run_fst _ _ _
